import Mathlib

/-!
Shallow embedding of the `seigi` focus-containment library (crates
`seigi_focus` and `seigi_form`) and proofs about its behaviour.

Document elements are modelled as records carrying the observable data the
code reads (tag name, attributes, tab index, whether the node is an
`HtmlElement`) together with the list of their ancestors' data, nearest
parent first.  DOM queries (`querySelectorAll` on the candidate selector,
`Node.contains`, `document.activeElement`, `document.querySelector`) are
supplied by an explicit `Dom` environment: the engine treats them as
oracles, exactly as the Rust code treats the browser.
-/

namespace Seigi

/-- Observable data of a single document node: tag name, attribute list,
the value of the `tabIndex` property, and whether the node is an
`HtmlElement` (the code skips nodes whose `dyn_into::<HtmlElement>` fails). -/
structure ElemData where
  tag : String
  attrs : List (String × String)
  tabIndex : Int
  isHtml : Bool
deriving DecidableEq, Repr

/-- A document element: its own data plus the data of its ancestors,
nearest parent first.  Equality models JavaScript reference equality. -/
structure Elem where
  data : ElemData
  ancestors : List ElemData
deriving DecidableEq, Repr

/-- Embedding of `Element::get_attribute`. -/
def ElemData.getAttr (d : ElemData) (name : String) : Option String :=
  (d.attrs.find? (fun p => p.1 = name)).map (fun p => p.2)

/-- Embedding of `Element::parent_element`. -/
def parent_element (e : Elem) : Option Elem :=
  match e.ancestors with
  | [] => none
  | p :: rest => some ⟨p, rest⟩

/-! Embedding of `seigi_focus/src/candidates.rs`. -/

/-- `is_disabled` (candidates.rs): the `disabled` attribute is present with
value exactly `"true"`. -/
def is_disabled (element : Elem) : Bool :=
  match element.data.getAttr "disabled" with
  | some disabled => disabled = "true"
  | none => false

/-- Inertness of a node's data: the `inert` attribute equals `"true"`. -/
def ElemData.inert (d : ElemData) : Bool :=
  match d.getAttr "inert" with
  | some inert => inert = "true"
  | none => false

/-- `is_inert` (candidates.rs). -/
def is_inert (element : Elem) : Bool :=
  element.data.inert

/-- The `loop` body of `has_inert_ancestor` (candidates.rs): each iteration
tests `is_inert(element)` — the original element, not `current` — and then
climbs `current` one parent up until the chain ends. -/
def inert_loop (element : Elem) (current : ElemData) (above : List ElemData) : Bool :=
  if is_inert element then true
  else
    match above with
    | p :: rest => inert_loop element p rest
    | [] => false

/-- `has_inert_ancestor` (candidates.rs), translated faithfully: if the
element has no parent the answer is `false`; otherwise the loop above runs
with `current` starting at the parent. -/
def has_inert_ancestor (element : Elem) : Bool :=
  match element.ancestors with
  | [] => false
  | current :: above => inert_loop element current above

/-- `is_hidden_input` (candidates.rs): `tag_name() == "input"` and the
`type` attribute equals `"hidden"`. -/
def is_hidden_input (element : Elem) : Bool :=
  element.data.tag = "input" &&
    match element.data.getAttr "type" with
    | some t => t = "hidden"
    | none => false

/-- `is_focusable` (candidates.rs). -/
def is_focusable (element : Elem) : Bool :=
  if is_disabled element || is_inert element || has_inert_ancestor element
      || is_hidden_input element then
    false
  else
    true

/-- `is_tabbable` (candidates.rs). -/
def is_tabbable (element : Elem) : Bool :=
  if element.data.tabIndex < 0 || !is_focusable element then
    false
  else
    true

/-- `candidates` (candidates.rs).  The argument is the result of
`container.query_selector_all(CANDIDATE_SELECTOR)`: `none` models a failed
query (the `else` arm returning `vec![]`), `some elements` the node list in
document order.  Elements that are not `HtmlElement`s are skipped, then the
caller's filter is applied. -/
def candidates (query : Option (List Elem)) (filter : Elem → Bool) : List Elem :=
  match query with
  | none => []
  | some elements => elements.filter (fun e => e.data.isHtml && filter e)

/-- `first_candidate` (candidates.rs): first element of the query result
passing the `HtmlElement` cast and the filter; `none` on query failure. -/
def first_candidate (query : Option (List Elem)) (filter : Elem → Bool) : Option Elem :=
  match query with
  | none => none
  | some elements => elements.find? (fun e => e.data.isHtml && filter e)

/-- `tab_candidates` (candidates.rs). -/
def tab_candidates (query : Option (List Elem)) : List Elem :=
  candidates query is_tabbable

/-- `focus_candidates` (candidates.rs). -/
def focus_candidates (query : Option (List Elem)) : List Elem :=
  candidates query is_focusable

/-- `first_tab_candidate` (candidates.rs). -/
def first_tab_candidate (query : Option (List Elem)) : Option Elem :=
  first_candidate query is_tabbable

/-- `first_focus_candidate` (candidates.rs). -/
def first_focus_candidate (query : Option (List Elem)) : Option Elem :=
  first_candidate query is_focusable

/-! Embedding of `seigi_focus/src/lib.rs`. -/

/-- The document environment supplying everything the trap reads from the
browser: the `body` element, `Node.contains` (descendant-or-self), the
result of `query_selector_all(CANDIDATE_SELECTOR)` on a container (`none`
models a failed query), `document.query_selector` for a string selector
(`none` models both `Err` and no-match, mirroring `.ok().flatten()`), and
`document.activeElement`. -/
structure Dom where
  body : Elem
  contains : Elem → Elem → Bool
  query : Elem → Option (List Elem)
  selectorQuery : String → Option Elem
  activeElement : Option Elem

/-- `InitialFocus` (lib.rs).  The `function` variant carries the closure. -/
inductive InitialFocus where
  | none
  | auto
  | selector (s : String)
  | element (e : Elem)
  | function (f : Unit → Elem)

/-- `FocusTrapHooks` (lib.rs): whether each optional hook closure is
present; invoking a present hook is recorded as an effect. -/
structure FocusTrapHooks where
  activate : Bool
  deactivate : Bool

/-- `FocusTrapOptions` (lib.rs). -/
structure FocusTrapOptions where
  return_focus : Bool
  initial_focus : InitialFocus
  deactivate_on_escape : Bool
  hooks : FocusTrapHooks
  scope : Elem
  target : Elem

/-- Observable side effects of trap operations, in execution order:
registering / unregistering the listener set, scheduling a zero-delay
deferred focus of an element (`schedule_focus`), invoking a hook,
`preventDefault`, and `stopImmediatePropagation`. -/
inductive Effect where
  | addListeners
  | removeListeners
  | scheduleFocus (e : Elem)
  | hookActivate
  | hookDeactivate
  | preventDefault
  | stopImmediatePropagation
deriving DecidableEq, Repr

/-- The mutable `State` of a trap (lib.rs), minus the callback closures
(their registration is modelled by the listener effects). -/
structure State where
  options : FocusTrapOptions
  is_activated : Bool
  last_focus : Option Elem
  return_element : Option Elem

/-- `State::initial_focus` (lib.rs): resolve the initial-focus policy and
schedule the resolved element, if any. -/
def initial_focus_effects (d : Dom) (options : FocusTrapOptions) : List Effect :=
  match options.initial_focus with
  | .none => []
  | .auto =>
    match first_focus_candidate (d.query options.target) with
    | some element => [Effect.scheduleFocus element]
    | none => []
  | .selector sel =>
    match d.selectorQuery sel with
    | some element => if element.data.isHtml then [Effect.scheduleFocus element] else []
    | none => []
  | .element element => [Effect.scheduleFocus element]
  | .function f => [Effect.scheduleFocus (f ())]

/-- `State::return_focus` (lib.rs): schedule the recorded pre-activation
element, if one was recorded.  Note that the source consults only
`self.return_element`; the `return_focus` option is not read. -/
def State.return_focus_effects (s : State) : List Effect :=
  match s.return_element with
  | some element => [Effect.scheduleFocus element]
  | none => []

/-- `State::activate` (lib.rs): no-op when already activated; otherwise
record `document.activeElement` as the return element, add the listeners,
resolve initial focus, and invoke the activate hook if present. -/
def State.activate (s : State) (d : Dom) : State × List Effect :=
  if s.is_activated then (s, [])
  else
    ({ s with is_activated := true, return_element := d.activeElement },
      Effect.addListeners :: initial_focus_effects d s.options ++
        (if s.options.hooks.activate then [Effect.hookActivate] else []))

/-- `State::deactivate` (lib.rs): no-op when already deactivated; otherwise
remove the listeners, run `return_focus`, and invoke the deactivate hook if
present. -/
def State.deactivate (s : State) : State × List Effect :=
  if !s.is_activated then (s, [])
  else
    ({ s with is_activated := false },
      Effect.removeListeners :: s.return_focus_effects ++
        (if s.options.hooks.deactivate then [Effect.hookDeactivate] else []))

/-- A focus / pointer / mouse event as the handlers see it: `target` is
`none` when the event has no target or the target is not an `HtmlElement`
(the handlers return early in that case). -/
structure DomEvent where
  target : Option Elem

/-- `State::handle_focus_in` (lib.rs). -/
def State.handle_focus_in (s : State) (d : Dom) (event : DomEvent) : State × List Effect :=
  match event.target with
  | none => (s, [])
  | some target =>
    if d.contains s.options.target target then
      ({ s with last_focus := some target }, [])
    else
      (s, Effect.stopImmediatePropagation ::
        match s.last_focus with
        | some last_focus => [Effect.scheduleFocus last_focus]
        | none => [])

/-- `State::handle_pointer_down` (lib.rs). -/
def State.handle_pointer_down (s : State) (d : Dom) (event : DomEvent) : State × List Effect :=
  match event.target with
  | none => (s, [])
  | some target =>
    if !d.contains s.options.target target then (s, [Effect.preventDefault])
    else (s, [])

/-- `State::handle_click` (lib.rs). -/
def State.handle_click (s : State) (d : Dom) (event : DomEvent) : State × List Effect :=
  match event.target with
  | none => (s, [])
  | some target =>
    if !d.contains s.options.target target then
      (s, [Effect.preventDefault, Effect.stopImmediatePropagation])
    else (s, [])

/-- A keyboard event: `key()`, `shift_key()`, and `target()` (the key-down
handler casts the target with `unchecked_ref`, so no `HtmlElement` check is
modelled; `none` is an absent target). -/
structure KeyEvent where
  key : String
  shiftKey : Bool
  target : Option Elem

/-- Embedding of Rust's `Iterator::position`: index of the first element
satisfying the predicate. -/
def position? {α : Type} (l : List α) (p : α → Bool) : Option Nat :=
  match l with
  | [] => none
  | x :: xs => if p x then some 0 else (position? xs p).map (fun n => n + 1)

/-- The filter applied to the body-wide candidate scan in
`State::handle_key_down`: tabbable, and outside `scope` or inside
`target`. -/
def body_filter (d : Dom) (scope target : Elem) (v : Elem) : Bool :=
  is_tabbable v && (!d.contains scope v || d.contains target v)

/-- `State::handle_key_down` (lib.rs), translated branch by branch.  The
result is `none` exactly when one of the source's `unwrap` calls would
panic (the `position` lookup, or the `first`/`last` unwraps that back the
wrap-around).  Unsigned subtraction `position - 1` only occurs under
`position ≠ 0`, so `Nat` subtraction is exact there. -/
def State.handle_key_down (s : State) (d : Dom) (event : KeyEvent) :
    Option (State × List Effect) :=
  if event.key = "Tab" then
    match event.target with
    | none => some (s, [])
    | some target =>
      let is_backward := event.shiftKey
      let body_tab_candidates :=
        candidates (d.query d.body) (body_filter d s.options.scope s.options.target)
      let container_tab_candidates := tab_candidates (d.query s.options.target)
      if is_backward then
        match container_tab_candidates.head? with
        | none => some (s, [Effect.preventDefault])
        | some first =>
          if target = first then
            match position? body_tab_candidates (fun v => v = target) with
            | none => none
            | some position =>
              if position = 0 then
                match body_tab_candidates.getLast? with
                | none => none
                | some last => some (s, [Effect.scheduleFocus last, Effect.preventDefault])
              else
                match body_tab_candidates[position - 1]? with
                | some t => some (s, [Effect.scheduleFocus t, Effect.preventDefault])
                | none =>
                  match body_tab_candidates.getLast? with
                  | none => none
                  | some last => some (s, [Effect.scheduleFocus last, Effect.preventDefault])
          else some (s, [])
      else
        match container_tab_candidates.getLast? with
        | none => some (s, [Effect.preventDefault])
        | some last =>
          if target = last then
            match position? body_tab_candidates (fun v => v = target) with
            | none => none
            | some position =>
              if position = body_tab_candidates.length then
                match container_tab_candidates.head? with
                | none => none
                | some first => some (s, [Effect.scheduleFocus first, Effect.preventDefault])
              else
                match body_tab_candidates[position + 1]? with
                | some t => some (s, [Effect.scheduleFocus t, Effect.preventDefault])
                | none =>
                  match body_tab_candidates.head? with
                  | none => none
                  | some first => some (s, [Effect.scheduleFocus first, Effect.preventDefault])
          else some (s, [])
  else if event.key = "Escape" && s.options.deactivate_on_escape then
    let r := s.deactivate
    some (r.1, Effect.preventDefault :: r.2)
  else some (s, [])

/-- `create` (lib.rs): the initial `State` placed in the shared cell. -/
def create (options : FocusTrapOptions) : State :=
  { options := options
    is_activated := false
    last_focus := none
    return_element := none }

/-- One operation on a trap: a public transition or an intercepted event,
each paired with the document environment current at that moment (the tree
may mutate between events). -/
inductive Op where
  | activate (d : Dom)
  | deactivate
  | focusIn (d : Dom) (event : DomEvent)
  | pointerDown (d : Dom) (event : DomEvent)
  | click (d : Dom) (event : DomEvent)
  | keyDown (d : Dom) (event : KeyEvent)

/-- Applying one operation to a trap state; `none` models a panic. -/
def step (s : State) : Op → Option (State × List Effect)
  | .activate d => some (s.activate d)
  | .deactivate => some s.deactivate
  | .focusIn d event => some (s.handle_focus_in d event)
  | .pointerDown d event => some (s.handle_pointer_down d event)
  | .click d event => some (s.handle_click d event)
  | .keyDown d event => s.handle_key_down d event

/-- Running a sequence of operations from a state. -/
def run (s : State) : List Op → Option State
  | [] => some s
  | op :: rest =>
    match step s op with
    | none => none
    | some (s', _) => run s' rest

/-! Embedding of `seigi_form/src/multi_stage/mod.rs` (the panic-relevant
control flow of `Inner` and `Form`; the DOM attribute mirroring and the
resize observer perform no state changes and cannot panic, so they are not
modelled). -/

/-- The `Inner` state of a multi-stage form.  `stageCount` is the common
length of `stages` and `traps` (one trap is built per stage in
`FormBuilder::build`). -/
structure FormInner where
  stageCount : Nat
  current : Nat
  is_activated : Bool
  is_locked : Bool
deriving DecidableEq, Repr

/-- `Inner::update_stage` (mod.rs): early return when locked or not
activated; otherwise `traps.get(current).unwrap()` and
`traps.get(target).unwrap()` panic (`none`) when the index is out of
bounds, else the current stage becomes `target`. -/
def FormInner.update_stage (f : FormInner) (target : Nat) : Option FormInner :=
  if f.is_locked || !f.is_activated then some f
  else if f.current < f.stageCount then
    if target < f.stageCount then some { f with current := target }
    else none
  else none

/-- `Form::next` (mod.rs). -/
def FormInner.next (f : FormInner) : Option FormInner :=
  f.update_stage (f.current + 1)

/-- `Form::previous` (mod.rs): `current - 1` is an unchecked `usize`
subtraction, which panics on underflow when `current = 0`. -/
def FormInner.previous (f : FormInner) : Option FormInner :=
  if f.current = 0 then none
  else f.update_stage (f.current - 1)

/-- `Form::stage` (mod.rs). -/
def FormInner.stage (f : FormInner) (stage : Nat) : Option FormInner :=
  f.update_stage stage

/-! Specification-side definitions (worded after the spec, for comparison
with the code), and well-formedness of the document environment. -/

/-- Worded after the spec: the successor of the element at index `p` of the
sequence `l`, wrapping to the sequence's first element when there is no
successor. -/
def spec_wrap_successor (l : List Elem) (p : Nat) : Option Elem :=
  match l[p + 1]? with
  | some x => some x
  | none => l.head?

/-- Worded after the spec: the predecessor of the element at index `p` of
the sequence `l`, wrapping to the sequence's last element when there is no
predecessor. -/
def spec_wrap_predecessor (l : List Elem) (p : Nat) : Option Elem :=
  if p = 0 then l.getLast? else l[p - 1]?

/-- Well-formedness of the document environment for a trap target: the
candidate queries on the target and on the body both succeed, every
candidate found under the target also appears in the body-wide scan, and is
contained in the target.  This is how a real document behaves when the
target sits inside the body. -/
def QueryWf (d : Dom) (target : Elem) : Prop :=
  ∃ ltgt lbody, d.query target = some ltgt ∧ d.query d.body = some lbody ∧
    ∀ e ∈ ltgt, e ∈ lbody ∧ d.contains target e = true

/-! Concrete fixtures used to instantiate the theorems. -/

/-- Data of a document body element. -/
def bodyData : ElemData := ⟨"body", [], -1, true⟩

/-- Data of a plain `div` container. -/
def containerData : ElemData := ⟨"div", [], -1, true⟩

/-- A button inside the container, distinguished by a `name` attribute. -/
def mkButton (name : String) : Elem :=
  ⟨⟨"button", [("name", name)], 0, true⟩, [containerData, bodyData]⟩

/-- First button of the sample target. -/
def aBtn : Elem := mkButton "a"

/-- Second button of the sample target. -/
def bBtn : Elem := mkButton "b"

/-- Third button of the sample target. -/
def cBtn : Elem := mkButton "c"

/-- The sample document body element. -/
def bodyElem : Elem := ⟨bodyData, []⟩

/-- The sample trap target (a `div` inside the body). -/
def targetElem : Elem := ⟨containerData, [bodyData]⟩

/-- A tabbable button outside the sample target. -/
def outsideBtn : Elem := ⟨⟨"button", [("name", "x")], 0, true⟩, [bodyData]⟩

/-- The sample document: the target holds buttons `a`, `b`, `c`; the body
additionally holds the outside button; the scope (the body) contains
everything. -/
def abcDom : Dom where
  body := bodyElem
  contains := fun container e =>
    if container = targetElem then decide (e ∈ [targetElem, aBtn, bBtn, cBtn])
    else if container = bodyElem then true
    else false
  query := fun container =>
    if container = targetElem then some [aBtn, bBtn, cBtn]
    else if container = bodyElem then some [aBtn, bBtn, cBtn, outsideBtn]
    else some []
  selectorQuery := fun _ => none
  activeElement := some outsideBtn

/-- Options of the sample trap: scope is the body, target the `div`. -/
def abcOptions : FocusTrapOptions where
  return_focus := true
  initial_focus := InitialFocus.none
  deactivate_on_escape := false
  hooks := ⟨false, false⟩
  scope := bodyElem
  target := targetElem

/-- The sample trap in its activated state. -/
def abcTabState : State where
  options := abcOptions
  is_activated := true
  last_focus := none
  return_element := none

/-- The sample trap, activated, with `b` recorded as last in-bounds focus. -/
def escState : State where
  options := abcOptions
  is_activated := true
  last_focus := some bBtn
  return_element := none

/-- A document whose candidate queries find nothing. -/
def emptyDom : Dom where
  body := bodyElem
  contains := fun _ _ => false
  query := fun _ => some []
  selectorQuery := fun _ => none
  activeElement := none

/-- Options of a trap built with `return_focus: false` (as the multi-stage
form builds all of its traps). -/
def noReturnOptions : FocusTrapOptions where
  return_focus := false
  initial_focus := InitialFocus.none
  deactivate_on_escape := false
  hooks := ⟨false, false⟩
  scope := bodyElem
  target := targetElem

/-- Data of an inert wrapper element. -/
def inertParentData : ElemData := ⟨"div", [("inert", "true")], -1, true⟩

/-- A plain button whose direct parent is marked `inert="true"`. -/
def inertChild : Elem := ⟨⟨"button", [], 0, true⟩, [inertParentData, bodyData]⟩

/-! Shared auxiliary lemmas. -/

/-- An element named by `head?` is a member of the list. -/
theorem mem_of_head?_aux {α : Type} {l : List α} {a : α} (h : l.head? = some a) : a ∈ l := by
  cases l with
  | nil => simp at h
  | cons x xs =>
    simp only [List.head?_cons, Option.some.injEq] at h
    simp [h]

/-- An element named by `getLast?` is a member of the list. -/
theorem mem_of_getLast?_aux {α : Type} {l : List α} {a : α} (h : l.getLast? = some a) :
    a ∈ l := by
  obtain ⟨hne, heq⟩ := List.mem_getLast?_eq_getLast (show a ∈ l.getLast? from h)
  exact heq ▸ List.getLast_mem hne

/-- `Iterator::position` finds an index when some member satisfies the
predicate, and the index is in bounds. -/
theorem position?_of_mem {α : Type} {l : List α} {p : α → Bool} {x : α}
    (hx : x ∈ l) (hp : p x = true) : ∃ k, position? l p = some k ∧ k < l.length := by
  induction l with
  | nil => cases hx
  | cons a as ih =>
    by_cases ha : p a = true
    · exact ⟨0, by simp [position?, ha], by simp⟩
    · have hxas : x ∈ as := by
        rcases List.mem_cons.mp hx with h | h
        · exact absurd (h ▸ hp) ha
        · exact h
      obtain ⟨k, hk, hlt⟩ := ih hxas
      refine ⟨k + 1, ?_, by simpa using Nat.succ_lt_succ hlt⟩
      simp [position?, ha, hk]

/-- The Tab handler on an empty container tab-candidate list: both
directions suppress the default action and schedule nothing. -/
theorem hkd_empty_container (s : State) (d : Dom) (event : KeyEvent) (t : Elem)
    (hkey : event.key = "Tab") (htgt : event.target = some t)
    (hzero : tab_candidates (d.query s.options.target) = []) :
    s.handle_key_down d event = some (s, [Effect.preventDefault]) := by
  cases hshift : event.shiftKey <;>
    simp [State.handle_key_down, hkey, htgt, hzero, hshift]

/-- The Tab handler when the event target differs from the first container
candidate (backward direction): nothing happens. -/
theorem hkd_backward_miss (s : State) (d : Dom) (event : KeyEvent) (t first : Elem)
    (hkey : event.key = "Tab") (htgt : event.target = some t)
    (hshift : event.shiftKey = true)
    (hh : (tab_candidates (d.query s.options.target)).head? = some first)
    (hne : t ≠ first) :
    s.handle_key_down d event = some (s, []) := by
  simp [State.handle_key_down, hkey, htgt, hshift, hh, hne]

/-- The Tab handler when the event target differs from the last container
candidate (forward direction): nothing happens. -/
theorem hkd_forward_miss (s : State) (d : Dom) (event : KeyEvent) (t last : Elem)
    (hkey : event.key = "Tab") (htgt : event.target = some t)
    (hshift : event.shiftKey = false)
    (hh : (tab_candidates (d.query s.options.target)).getLast? = some last)
    (hne : t ≠ last) :
    s.handle_key_down d event = some (s, []) := by
  simp [State.handle_key_down, hkey, htgt, hshift, hh, hne]

/-- The Tab handler with an absent event target: nothing happens. -/
theorem hkd_no_target (s : State) (d : Dom) (event : KeyEvent)
    (hkey : event.key = "Tab") (htgt : event.target = none) :
    s.handle_key_down d event = some (s, []) := by
  simp [State.handle_key_down, hkey, htgt]

/-- Membership transfer: a container tab candidate also appears in the
body-wide filtered candidate list, provided the document is well formed. -/
theorem mem_body_candidates (s : State) (d : Dom) (t : Elem) (ltgt lbody : List Elem)
    (hq1 : d.query s.options.target = some ltgt)
    (hq2 : d.query d.body = some lbody)
    (hsub : ∀ e ∈ ltgt, e ∈ lbody ∧ d.contains s.options.target e = true)
    (htmem : t ∈ tab_candidates (d.query s.options.target)) :
    t ∈ candidates (d.query d.body) (body_filter d s.options.scope s.options.target) := by
  rw [hq1] at htmem
  have htmem' : t ∈ ltgt.filter (fun e => e.data.isHtml && is_tabbable e) := by
    simpa [tab_candidates, candidates] using htmem
  obtain ⟨htl, hprops⟩ := List.mem_filter.mp htmem'
  obtain ⟨hhtml, htab⟩ : t.data.isHtml = true ∧ is_tabbable t = true := by simpa using hprops
  obtain ⟨htb, hcont⟩ := hsub t htl
  rw [hq2]
  simp only [candidates]
  refine List.mem_filter.mpr ⟨htb, ?_⟩
  simp [body_filter, htab, hcont, hhtml]

/-- The Tab handler, forward hit case: the event target is the last
container tab candidate; the handler schedules the target's wrap-around
successor in the body-wide filtered candidate sequence and suppresses the
default action. -/
theorem hkd_forward_wrap (s : State) (d : Dom) (event : KeyEvent) (t : Elem)
    (ltgt lbody : List Elem)
    (hkey : event.key = "Tab") (htgt : event.target = some t)
    (hshift : event.shiftKey = false)
    (hq1 : d.query s.options.target = some ltgt)
    (hq2 : d.query d.body = some lbody)
    (hsub : ∀ e ∈ ltgt, e ∈ lbody ∧ d.contains s.options.target e = true)
    (hlast : (tab_candidates (d.query s.options.target)).getLast? = some t) :
    ∃ p e,
      position? (candidates (d.query d.body) (body_filter d s.options.scope s.options.target))
        (fun v => v = t) = some p ∧
      spec_wrap_successor
        (candidates (d.query d.body) (body_filter d s.options.scope s.options.target)) p
        = some e ∧
      s.handle_key_down d event = some (s, [Effect.scheduleFocus e, Effect.preventDefault]) := by
  have htmem : t ∈ tab_candidates (d.query s.options.target) := mem_of_getLast?_aux hlast
  have hbmem := mem_body_candidates s d t ltgt lbody hq1 hq2 hsub htmem
  obtain ⟨p, hp, hplt⟩ := position?_of_mem (p := fun v => v = t) hbmem (by simp)
  have hplen : p ≠ (candidates (d.query d.body)
      (body_filter d s.options.scope s.options.target)).length := Nat.ne_of_lt hplt
  refine ⟨p, ?_⟩
  cases hg : (candidates (d.query d.body)
      (body_filter d s.options.scope s.options.target))[p + 1]? with
  | some x =>
    refine ⟨x, hp, by simp [spec_wrap_successor, hg], ?_⟩
    simp [State.handle_key_down, hkey, htgt, hshift, hlast, hp, hplen, hg]
  | none =>
    cases hh : (candidates (d.query d.body)
        (body_filter d s.options.scope s.options.target)).head? with
    | none =>
      rw [List.head?_eq_none_iff.mp hh] at hbmem
      cases hbmem
    | some first =>
      refine ⟨first, hp, by simp [spec_wrap_successor, hg, hh], ?_⟩
      simp [State.handle_key_down, hkey, htgt, hshift, hlast, hp, hplen, hg, hh]

/-- The Tab handler, backward hit case: the event target is the first
container tab candidate; the handler schedules the target's wrap-around
predecessor in the body-wide filtered candidate sequence and suppresses
the default action. -/
theorem hkd_backward_wrap (s : State) (d : Dom) (event : KeyEvent) (t : Elem)
    (ltgt lbody : List Elem)
    (hkey : event.key = "Tab") (htgt : event.target = some t)
    (hshift : event.shiftKey = true)
    (hq1 : d.query s.options.target = some ltgt)
    (hq2 : d.query d.body = some lbody)
    (hsub : ∀ e ∈ ltgt, e ∈ lbody ∧ d.contains s.options.target e = true)
    (hfirst : (tab_candidates (d.query s.options.target)).head? = some t) :
    ∃ p e,
      position? (candidates (d.query d.body) (body_filter d s.options.scope s.options.target))
        (fun v => v = t) = some p ∧
      spec_wrap_predecessor
        (candidates (d.query d.body) (body_filter d s.options.scope s.options.target)) p
        = some e ∧
      s.handle_key_down d event = some (s, [Effect.scheduleFocus e, Effect.preventDefault]) := by
  have htmem : t ∈ tab_candidates (d.query s.options.target) := mem_of_head?_aux hfirst
  have hbmem := mem_body_candidates s d t ltgt lbody hq1 hq2 hsub htmem
  obtain ⟨p, hp, hplt⟩ := position?_of_mem (p := fun v => v = t) hbmem (by simp)
  refine ⟨p, ?_⟩
  by_cases hp0 : p = 0
  · cases hl : (candidates (d.query d.body)
        (body_filter d s.options.scope s.options.target)).getLast? with
    | none =>
      rw [List.getLast?_eq_none_iff.mp hl] at hbmem
      cases hbmem
    | some last =>
      refine ⟨last, hp, by simp [spec_wrap_predecessor, hp0, hl], ?_⟩
      simp [State.handle_key_down, hkey, htgt, hshift, hfirst, hp, hp0, hl]
  · have hpm : p - 1 < (candidates (d.query d.body)
        (body_filter d s.options.scope s.options.target)).length := by omega
    cases hg : (candidates (d.query d.body)
        (body_filter d s.options.scope s.options.target))[p - 1]? with
    | none =>
      exact absurd (List.getElem?_eq_none_iff.mp hg) (by omega)
    | some x =>
      refine ⟨x, hp, by simp [spec_wrap_predecessor, hp0, hg], ?_⟩
      simp [State.handle_key_down, hkey, htgt, hshift, hfirst, hp, hp0, hg]

/-! Theorems for the individual claims. -/

/-- C9: if the underlying subtree selector query fails, `candidates`
returns the empty sequence and `first_candidate` (hence
`first_tab_candidate` and `first_focus_candidate`) returns no element; the
failure is never propagated as an error (the return types carry no error
case at all). -/
theorem c9_query_failure_degrades :
    ∀ filter : Elem → Bool,
      candidates none filter = [] ∧
      first_candidate none filter = none ∧
      tab_candidates none = [] ∧
      focus_candidates none = [] ∧
      first_tab_candidate none = none ∧
      first_focus_candidate none = none := by
  intro filter
  exact ⟨rfl, rfl, rfl, rfl, rfl, rfl⟩

/-- C6: `activate` is idempotent — after any `activate` the trap is
activated, and a second `activate` (with any document state) returns the
state unchanged with no effects: no listeners added, no focus scheduled, no
hook invoked; symmetrically for `deactivate`. -/
theorem c6_activate_deactivate_idempotent :
    ∀ (s : State) (d d' : Dom),
      (s.activate d).1.is_activated = true ∧
      (s.activate d).1.activate d' = ((s.activate d).1, []) ∧
      (s.deactivate).1.is_activated = false ∧
      (s.deactivate).1.deactivate = ((s.deactivate).1, []) := by
  intro s d d'
  have h1 : (s.activate d).1.is_activated = true := by
    by_cases h : s.is_activated <;> simp [State.activate, h]
  have h3 : (s.deactivate).1.is_activated = false := by
    by_cases h : s.is_activated <;> simp [State.deactivate, h]
  refine ⟨h1, ?_, h3, ?_⟩
  · generalize (s.activate d).1 = s1 at h1 ⊢
    simp [State.activate, h1]
  · generalize s.deactivate.1 = s1 at h3 ⊢
    simp [State.deactivate, h3]

/-- C4 (code bug): `has_inert_ancestor` tests `is_inert(element)` — the
original element — inside its climb loop, never the ancestor, so a
non-inert button whose parent is marked `inert="true"` is reported
focusable and tabbable, and is returned by the candidate enumerations. -/
theorem c4_inert_ancestor_not_excluded :
    inertChild.ancestors.any (fun a => a.inert) = true ∧
    is_inert inertChild = false ∧
    has_inert_ancestor inertChild = false ∧
    is_focusable inertChild = true ∧
    is_tabbable inertChild = true ∧
    focus_candidates (some [inertChild]) = [inertChild] ∧
    tab_candidates (some [inertChild]) = [inertChild] := by
  refine ⟨by decide, by decide, by decide, by decide, by decide, by decide, by decide⟩

/-- C1 (code bug): `deactivate` runs `return_focus` unconditionally — the
`return_focus` option is never read — so a trap built with
`return_focus: false`, activated while the outside button was focused, still
schedules focus back to that button on deactivation. -/
theorem c1_return_focus_option_ignored :
    noReturnOptions.return_focus = false ∧
    ((create noReturnOptions).activate abcDom).1.return_element = some outsideBtn ∧
    (((create noReturnOptions).activate abcDom).1).deactivate =
      ({ options := noReturnOptions, is_activated := false, last_focus := none,
         return_element := some outsideBtn },
       [Effect.removeListeners, Effect.scheduleFocus outsideBtn]) := by
  refine ⟨rfl, rfl, rfl⟩

/-- C10: at the public interface of the multi-stage form, `previous()` with
current stage 0 panics by unsigned underflow; on an activated, unlocked
form whose current stage is the last one, `next()` — and `stage(i)` for any
`i` at or beyond the stage count — panics unwrapping the missing trap. -/
theorem c10_form_boundary_panics :
    (∀ f : FormInner, f.current = 0 → f.previous = none) ∧
    (∀ f : FormInner, f.is_activated = true → f.is_locked = false →
      f.current + 1 = f.stageCount → f.next = none) ∧
    (∀ (f : FormInner) (i : Nat), f.is_activated = true → f.is_locked = false →
      f.current < f.stageCount → f.stageCount ≤ i → f.stage i = none) := by
  refine ⟨?_, ?_, ?_⟩
  · intro f h
    simp [FormInner.previous, h]
  · intro f hact hlock hcur
    have hlt : f.current < f.stageCount := by omega
    simp [FormInner.next, FormInner.update_stage, hact, hlock, hlt]
    omega
  · intro f i hact hlock hcur hi
    simp [FormInner.stage, FormInner.update_stage, hact, hlock, hcur]
    omega

/-- Witness for C10 at concrete three-stage forms. -/
theorem c10_form_boundary_panics_witness :
    FormInner.previous ⟨3, 0, true, false⟩ = none ∧
    FormInner.next ⟨3, 2, true, false⟩ = none ∧
    FormInner.stage ⟨3, 1, true, false⟩ 5 = none :=
  ⟨c10_form_boundary_panics.1 ⟨3, 0, true, false⟩ rfl,
   c10_form_boundary_panics.2.1 ⟨3, 2, true, false⟩ rfl rfl rfl,
   c10_form_boundary_panics.2.2 ⟨3, 1, true, false⟩ 5 rfl rfl (by decide) (by decide)⟩

/-- C5: while a trap is activated and its target has zero tab candidates,
every Tab keydown — with or without shift — has its default action
prevented and nothing else happens: no refocus is scheduled, focus stays
pinned. -/
theorem c5_zero_candidate_pinning (s : State) (d : Dom) (event : KeyEvent) (t : Elem)
    (hact : s.is_activated = true)
    (hkey : event.key = "Tab") (htgt : event.target = some t)
    (hzero : tab_candidates (d.query s.options.target) = []) :
    s.handle_key_down d event = some (s, [Effect.preventDefault]) :=
  hkd_empty_container s d event t hkey htgt hzero

/-- Witness for C5: the sample activated trap over a document whose
candidate queries find nothing, for both Tab and Shift+Tab. -/
theorem c5_zero_candidate_pinning_witness :
    abcTabState.handle_key_down emptyDom ⟨"Tab", false, some cBtn⟩ =
      some (abcTabState, [Effect.preventDefault]) ∧
    abcTabState.handle_key_down emptyDom ⟨"Tab", true, some cBtn⟩ =
      some (abcTabState, [Effect.preventDefault]) :=
  ⟨c5_zero_candidate_pinning abcTabState emptyDom ⟨"Tab", false, some cBtn⟩ cBtn rfl rfl rfl rfl,
   c5_zero_candidate_pinning abcTabState emptyDom ⟨"Tab", true, some cBtn⟩ cBtn rfl rfl rfl rfl⟩

/-- C3: while a trap is activated, a `focusin` whose target is inside the
trap target records that element as the last in-bounds focus; a `focusin`
whose target is outside stops the event's immediate propagation and, when a
last in-bounds focus is recorded, schedules it to be refocused. -/
theorem c3_focus_escape_containment (s : State) (d : Dom) (event : DomEvent) (t : Elem)
    (hact : s.is_activated = true) (htgt : event.target = some t) :
    (d.contains s.options.target t = true →
      s.handle_focus_in d event = ({ s with last_focus := some t }, [])) ∧
    (d.contains s.options.target t = false →
      s.handle_focus_in d event =
        (s, Effect.stopImmediatePropagation ::
          match s.last_focus with
          | some last_focus => [Effect.scheduleFocus last_focus]
          | none => [])) := by
  constructor
  · intro hc
    simp [State.handle_focus_in, htgt, hc]
  · intro hc
    simp [State.handle_focus_in, htgt, hc]

/-- Witness for C3: with `b` recorded as last in-bounds focus, focusing the
outside button stops propagation and schedules `b`; focusing `a` inside
records `a`. -/
theorem c3_focus_escape_containment_witness :
    escState.handle_focus_in abcDom ⟨some outsideBtn⟩ =
      (escState, [Effect.stopImmediatePropagation, Effect.scheduleFocus bBtn]) ∧
    escState.handle_focus_in abcDom ⟨some aBtn⟩ =
      ({ escState with last_focus := some aBtn }, []) :=
  ⟨(c3_focus_escape_containment escState abcDom ⟨some outsideBtn⟩ outsideBtn rfl rfl).2
      (by decide),
   (c3_focus_escape_containment escState abcDom ⟨some aBtn⟩ aBtn rfl rfl).1 (by decide)⟩

/-- C2: on an activated trap in a well-formed document, a Tab keydown whose
target is the last container tab candidate prevents default and schedules
that element's successor in the body-wide tab sequence filtered to elements
outside the scope or inside the target, wrapping to the filtered sequence's
first element; Shift+Tab on the first container candidate schedules the
predecessor, wrapping to the filtered sequence's last element. -/
theorem c2_cyclic_tab_order (s : State) (d : Dom) (event : KeyEvent) (t : Elem)
    (ltgt lbody : List Elem)
    (hact : s.is_activated = true)
    (hkey : event.key = "Tab") (htgt : event.target = some t)
    (hq1 : d.query s.options.target = some ltgt)
    (hq2 : d.query d.body = some lbody)
    (hsub : ∀ e ∈ ltgt, e ∈ lbody ∧ d.contains s.options.target e = true) :
    (event.shiftKey = false →
      (tab_candidates (d.query s.options.target)).getLast? = some t →
      ∃ p e,
        position? (candidates (d.query d.body) (body_filter d s.options.scope s.options.target))
          (fun v => v = t) = some p ∧
        spec_wrap_successor
          (candidates (d.query d.body) (body_filter d s.options.scope s.options.target)) p
          = some e ∧
        s.handle_key_down d event = some (s, [Effect.scheduleFocus e, Effect.preventDefault])) ∧
    (event.shiftKey = true →
      (tab_candidates (d.query s.options.target)).head? = some t →
      ∃ p e,
        position? (candidates (d.query d.body) (body_filter d s.options.scope s.options.target))
          (fun v => v = t) = some p ∧
        spec_wrap_predecessor
          (candidates (d.query d.body) (body_filter d s.options.scope s.options.target)) p
          = some e ∧
        s.handle_key_down d event = some (s, [Effect.scheduleFocus e, Effect.preventDefault])) :=
  ⟨fun hshift hlast => hkd_forward_wrap s d event t ltgt lbody hkey htgt hshift hq1 hq2 hsub hlast,
   fun hshift hfirst =>
    hkd_backward_wrap s d event t ltgt lbody hkey htgt hshift hq1 hq2 hsub hfirst⟩

/-- Witness for C2: in the sample document — target candidates `[a, b, c]`,
scope containing the whole universe — Tab while `c` is focused schedules
`a`, and Shift+Tab while `a` is focused schedules `c`. -/
theorem c2_cyclic_tab_order_witness :
    abcTabState.handle_key_down abcDom ⟨"Tab", false, some cBtn⟩ =
      some (abcTabState, [Effect.scheduleFocus aBtn, Effect.preventDefault]) ∧
    abcTabState.handle_key_down abcDom ⟨"Tab", true, some aBtn⟩ =
      some (abcTabState, [Effect.scheduleFocus cBtn, Effect.preventDefault]) := by
  constructor
  · obtain ⟨p, e, hp, he, hh⟩ :=
      (c2_cyclic_tab_order abcTabState abcDom ⟨"Tab", false, some cBtn⟩ cBtn
        [aBtn, bBtn, cBtn] [aBtn, bBtn, cBtn, outsideBtn] rfl rfl rfl rfl rfl
        (by decide)).1 rfl (by decide)
    have hp2 : p = 2 := by
      have hcalc :
          position? (candidates (abcDom.query abcDom.body)
            (body_filter abcDom abcTabState.options.scope abcTabState.options.target))
            (fun v => v = cBtn) = some 2 := by decide
      have := hcalc.symm.trans hp
      exact (Option.some.inj this).symm
    subst hp2
    have he2 : e = aBtn := by
      have hcalc :
          spec_wrap_successor (candidates (abcDom.query abcDom.body)
            (body_filter abcDom abcTabState.options.scope abcTabState.options.target)) 2
            = some aBtn := by decide
      exact (Option.some.inj (hcalc.symm.trans he)).symm
    subst he2
    exact hh
  · obtain ⟨p, e, hp, he, hh⟩ :=
      (c2_cyclic_tab_order abcTabState abcDom ⟨"Tab", true, some aBtn⟩ aBtn
        [aBtn, bBtn, cBtn] [aBtn, bBtn, cBtn, outsideBtn] rfl rfl rfl rfl rfl
        (by decide)).2 rfl (by decide)
    have hp2 : p = 0 := by
      have hcalc :
          position? (candidates (abcDom.query abcDom.body)
            (body_filter abcDom abcTabState.options.scope abcTabState.options.target))
            (fun v => v = aBtn) = some 0 := by decide
      have := hcalc.symm.trans hp
      exact (Option.some.inj this).symm
    subst hp2
    have he2 : e = cBtn := by
      have hcalc :
          spec_wrap_predecessor (candidates (abcDom.query abcDom.body)
            (body_filter abcDom abcTabState.options.scope abcTabState.options.target)) 0
            = some cBtn := by decide
      exact (Option.some.inj (hcalc.symm.trans he)).symm
    subst he2
    exact hh

/-- C8: on an activated trap in a well-formed document, the key-down
handler never panics on a Tab keydown: in particular, when the event target
equals the first or last container tab candidate, the position lookup in
the body-wide filtered candidate sequence succeeds. -/
theorem c8_keydown_no_panic (s : State) (d : Dom) (event : KeyEvent)
    (hact : s.is_activated = true)
    (hwf : QueryWf d s.options.target)
    (hkey : event.key = "Tab") :
    s.handle_key_down d event ≠ none := by
  obtain ⟨ltgt, lbody, hq1, hq2, hsub⟩ := hwf
  cases htgt : event.target with
  | none => simp [hkd_no_target s d event hkey htgt]
  | some t =>
    cases hshift : event.shiftKey with
    | true =>
      cases hh : (tab_candidates (d.query s.options.target)).head? with
      | none =>
        have hzero := List.head?_eq_none_iff.mp hh
        simp [hkd_empty_container s d event t hkey htgt hzero]
      | some first =>
        by_cases hteq : t = first
        · subst hteq
          obtain ⟨p, e, _, _, hres⟩ :=
            hkd_backward_wrap s d event t ltgt lbody hkey htgt hshift hq1 hq2 hsub hh
          simp [hres]
        · simp [hkd_backward_miss s d event t first hkey htgt hshift hh hteq]
    | false =>
      cases hh : (tab_candidates (d.query s.options.target)).getLast? with
      | none =>
        have hzero := List.getLast?_eq_none_iff.mp hh
        simp [hkd_empty_container s d event t hkey htgt hzero]
      | some last =>
        by_cases hteq : t = last
        · subst hteq
          obtain ⟨p, e, _, _, hres⟩ :=
            hkd_forward_wrap s d event t ltgt lbody hkey htgt hshift hq1 hq2 hsub hh
          simp [hres]
        · simp [hkd_forward_miss s d event t last hkey htgt hshift hh hteq]

/-- Witness for C8 on the sample trap: a Tab keydown targeting the last
container candidate does not panic. -/
theorem c8_keydown_no_panic_witness :
    abcTabState.handle_key_down abcDom ⟨"Tab", false, some cBtn⟩ ≠ none :=
  c8_keydown_no_panic abcTabState abcDom ⟨"Tab", false, some cBtn⟩ rfl
    ⟨[aBtn, bBtn, cBtn], [aBtn, bBtn, cBtn, outsideBtn], rfl, rfl, by decide⟩ rfl

/-- `activate` never touches `options` or `last_focus`. -/
theorem activate_fields (s : State) (d : Dom) :
    (s.activate d).1.options = s.options ∧ (s.activate d).1.last_focus = s.last_focus := by
  by_cases h : s.is_activated <;> simp [State.activate, h]

/-- `deactivate` never touches `options` or `last_focus`. -/
theorem deactivate_fields (s : State) :
    s.deactivate.1.options = s.options ∧ s.deactivate.1.last_focus = s.last_focus := by
  by_cases h : s.is_activated <;> simp [State.deactivate, h]

/-- Any result state of the key-down handler is either the input state or
the input state after `deactivate` (the Escape branch). -/
theorem handle_key_down_state_eq (s : State) (d : Dom) (event : KeyEvent)
    (r : State × List Effect) (h : s.handle_key_down d event = some r) :
    r.1 = s ∨ r.1 = s.deactivate.1 := by
  simp only [State.handle_key_down] at h
  repeat' split at h
  all_goals
    first
      | (have hx := (Option.some.inj h).symm
         subst hx
         first
           | exact Or.inl rfl
           | exact Or.inr rfl)
      | exact Option.noConfusion h

/-- One operation preserves the options, and changes `last_focus` only by
recording the in-bounds target of a `focusin` event. -/
theorem step_inv {s s' : State} {effs : List Effect} {op : Op}
    (h : step s op = some (s', effs)) :
    s'.options = s.options ∧
    (s'.last_focus = s.last_focus ∨
      ∃ d event t, op = Op.focusIn d event ∧ event.target = some t ∧
        s'.last_focus = some t ∧ d.contains s.options.target t = true) := by
  cases op with
  | activate d =>
    simp only [step] at h
    have heq := Option.some.inj h
    have hs : (s.activate d).1 = s' := by rw [heq]
    rw [← hs]
    exact ⟨(activate_fields s d).1, Or.inl (activate_fields s d).2⟩
  | deactivate =>
    simp only [step] at h
    have heq := Option.some.inj h
    have hs : s.deactivate.1 = s' := by rw [heq]
    rw [← hs]
    exact ⟨(deactivate_fields s).1, Or.inl (deactivate_fields s).2⟩
  | focusIn d event =>
    simp only [step] at h
    have heq := Option.some.inj h
    have hs : (s.handle_focus_in d event).1 = s' := by rw [heq]
    cases htgt : event.target with
    | none =>
      have hres : (s.handle_focus_in d event).1 = s := by
        simp [State.handle_focus_in, htgt]
      have h2 : s' = s := (hs.symm.trans hres)
      subst h2
      exact ⟨rfl, Or.inl rfl⟩
    | some t =>
      by_cases hc : d.contains s.options.target t = true
      · have hres : s.handle_focus_in d event = ({ s with last_focus := some t }, []) := by
          simp [State.handle_focus_in, htgt, hc]
        rw [hres] at hs
        subst hs
        exact ⟨rfl, Or.inr ⟨d, event, t, rfl, htgt, rfl, hc⟩⟩
      · have hc' : d.contains s.options.target t = false := by
          simpa using hc
        have hres : (s.handle_focus_in d event).1 = s := by
          simp [State.handle_focus_in, htgt, hc']
        have h2 : s' = s := (hs.symm.trans hres)
        subst h2
        exact ⟨rfl, Or.inl rfl⟩
  | pointerDown d event =>
    simp only [step] at h
    have heq := Option.some.inj h
    have hs : (s.handle_pointer_down d event).1 = s' := by rw [heq]
    have hres : (s.handle_pointer_down d event).1 = s := by
      cases htgt : event.target with
      | none => simp [State.handle_pointer_down, htgt]
      | some t =>
        by_cases hc : d.contains s.options.target t <;>
          simp [State.handle_pointer_down, htgt, hc]
    have h2 : s' = s := (hs.symm.trans hres)
    subst h2
    exact ⟨rfl, Or.inl rfl⟩
  | click d event =>
    simp only [step] at h
    have heq := Option.some.inj h
    have hs : (s.handle_click d event).1 = s' := by rw [heq]
    have hres : (s.handle_click d event).1 = s := by
      cases htgt : event.target with
      | none => simp [State.handle_click, htgt]
      | some t =>
        by_cases hc : d.contains s.options.target t <;>
          simp [State.handle_click, htgt, hc]
    have h2 : s' = s := (hs.symm.trans hres)
    subst h2
    exact ⟨rfl, Or.inl rfl⟩
  | keyDown d event =>
    simp only [step] at h
    rcases handle_key_down_state_eq s d event (s', effs) h with h1 | h1
    · have h2 : s' = s := h1
      subst h2
      exact ⟨rfl, Or.inl rfl⟩
    · have h2 : s' = s.deactivate.1 := h1
      rw [h2]
      exact ⟨(deactivate_fields s).1, Or.inl (deactivate_fields s).2⟩

/-- Running a sequence of operations preserves the options, and any
recorded `last_focus` either predates the run or was captured in-bounds by
a `focusin` of the run. -/
theorem run_last_focus (ops : List Op) :
    ∀ s s' : State, run s ops = some s' →
      s'.options = s.options ∧
      ∀ t, s'.last_focus = some t →
        s.last_focus = some t ∨
          ∃ d event, Op.focusIn d event ∈ ops ∧ event.target = some t ∧
            d.contains s.options.target t = true := by
  induction ops with
  | nil =>
    intro s s' h
    have h2 : s = s' := by simpa [run] using h
    subst h2
    exact ⟨rfl, fun t ht => Or.inl ht⟩
  | cons op rest ih =>
    intro s s' h
    simp only [run] at h
    cases hstep : step s op with
    | none =>
      rw [hstep] at h
      exact Option.noConfusion h
    | some pr =>
      rw [hstep] at h
      obtain ⟨s1, effs⟩ := pr
      have h1 : run s1 rest = some s' := h
      obtain ⟨hopts, hdisj⟩ := step_inv hstep
      obtain ⟨hopts', hlf⟩ := ih s1 s' h1
      refine ⟨hopts'.trans hopts, ?_⟩
      intro t ht
      rcases hlf t ht with hpast | ⟨d, event, hmem, hevt, hcont⟩
      · rcases hdisj with h2 | ⟨d, event, t', hop, hevt, hlf', hcont⟩
        · exact Or.inl (h2 ▸ hpast)
        · have ht' : t' = t := by
            rw [hlf'] at hpast
            exact Option.some.inj hpast
          subst ht'
          refine Or.inr ⟨d, event, ?_, hevt, hcont⟩
          rw [← hop]
          exact List.mem_cons_self op rest
      · refine Or.inr ⟨d, event, List.mem_cons_of_mem op hmem, hevt, ?_⟩
        rw [hopts] at hcont
        exact hcont

/-- C7: the trap's `last_focus` is `None` at creation and, after any
panic-free sequence of operations ends with `last_focus` set to an element,
that element was recorded by a `focusin` event of the run whose target it
was, and it was contained in the trap's target at that moment. -/
theorem c7_last_focus_invariant (options : FocusTrapOptions) (ops : List Op) (s' : State)
    (t : Elem) (hrun : run (create options) ops = some s')
    (hlf : s'.last_focus = some t) :
    (create options).last_focus = none ∧
    ∃ d event, Op.focusIn d event ∈ ops ∧ event.target = some t ∧
      d.contains options.target t = true := by
  obtain ⟨hopts, h⟩ := run_last_focus ops (create options) s' hrun
  rcases h t hlf with h1 | h2
  · exact absurd h1 (by simp [create])
  · exact ⟨rfl, h2⟩

/-- Witness for C7: one in-bounds `focusin` on the freshly created sample
trap records `b`. -/
theorem c7_last_focus_invariant_witness :
    (create abcOptions).last_focus = none ∧
    ∃ d event, Op.focusIn d event ∈ [Op.focusIn abcDom ⟨some bBtn⟩] ∧
      event.target = some bBtn ∧ d.contains abcOptions.target bBtn = true :=
  c7_last_focus_invariant abcOptions [Op.focusIn abcDom ⟨some bBtn⟩]
    { options := abcOptions, is_activated := false, last_focus := some bBtn,
      return_element := none } bBtn rfl rfl

end Seigi
